import Mathlib

/-!
Shallow embedding of the BubbleTender beverage-shop terminal application
(src/main.go): its data model, its controller (`model.Update`) and its cart
rendering (`model.cartView`), together with theorems settling the spec claims.

Modelling conventions, each justified where used:
* Prices (`float64` in Go) are represented in euro-cents as `Nat`.  Every
  price in the program's fixed catalog is a multiple of 0.25 euro, hence
  exactly representable in binary floating point, and every arithmetic
  operation the program performs on prices (multiplication by a quantity
  bounded by the stock, summation of at most five such products) is exact in
  `float64`, so `Nat` cents is value-faithful, and the `%.2f` formatting of
  such an exact value is the two-digit decimal rendering given by `euroFmt`.
* The cart (`map[int]int` in Go, absent key = quantity 0) is a quantity list
  indexed by catalog position (`List Nat`); the design notes state that a
  fixed-size array indexed by catalog position is an equivalent
  representation.  The one observable the map representation adds is the
  unspecified iteration order of `range m.cart`; `model.cartView` therefore
  takes the iteration order as an explicit parameter (a list of the keys in
  the order `range` visits them).
* The `bubbles` table component is external library code; following the
  design notes, its internal cursor becomes the explicit field
  `model.cursor`, and its navigation behaviour is modelled from the spec
  (see `navCursor`).
-/

/-- A catalog item (`Beverage` in src/main.go).  `Price` is in euro-cents
(see the module comment: exact for this program). -/
structure Beverage where
  Name : String
  Price : Nat
  Stock : Nat
deriving DecidableEq, Repr

/-- The fixed catalog `ourBeverages` of src/main.go, prices in cents. -/
def ourBeverages : List Beverage :=
  [ { Name := "Club-Mate", Price := 150, Stock := 24 },
    { Name := "Espresso", Price := 100, Stock := 50 },
    { Name := "Fritz-Kola", Price := 200, Stock := 12 },
    { Name := "Water", Price := 50, Stock := 100 },
    { Name := "Beer", Price := 250, Stock := 6 } ]

/-- An input event: a key press (`tea.KeyMsg`, identified by its
`msg.String()` name) or a terminal resize (`tea.WindowSizeMsg`). -/
inductive Msg where
  | key (k : String)
  | resize (w h : Int)
deriving DecidableEq, Repr

/-- The application state (`model` in src/main.go).  The `table` field of the
Go struct is replaced by its one piece of state this program depends on, the
highlighted-row `cursor` (the table's rows are recomputed from `beverages`
and `cart` on every Shop-tab update, so they carry no independent state). -/
structure model where
  beverages : List Beverage
  cursor : Nat
  cart : List Nat
  isCheckingOut : Bool
  activeTab : Nat
  width : Int
  height : Int
deriving DecidableEq, Repr

/-- `initialModel` of src/main.go: Shop tab, cursor 0, empty cart (the empty
Go map reads 0 at every key, hence the all-zero quantity list), not checking
out; `width`/`height` keep Go's zero values until the first resize. -/
def initialModel : model :=
  { beverages := ourBeverages
    cursor := 0
    cart := List.replicate ourBeverages.length 0
    isCheckingOut := false
    activeTab := 0
    width := 0
    height := 0 }

/-- Modelled from the spec: the `bubbles` table component's cursor movement
(library code outside src/).  Per the spec's transition table, navigate-down
and navigate-up move the cursor by one row, clamped to
`[0, len(catalog)-1]`; any other key leaves the cursor unchanged. -/
def navCursor (n cur : Nat) (k : String) : Nat :=
  if k = "down" then min (cur + 1) (n - 1)
  else if k = "up" then cur - 1
  else cur

/-- The quantity the cart holds at index `i` (`m.cart[i]` on a Go map:
absent key reads 0). -/
def cartQty (cart : List Nat) (i : Nat) : Nat := cart.getD i 0

/-- The stock ceiling at index `i` (`m.beverages[i].Stock`; the `getD`
default is never reached at the in-bounds cursors of reachable states,
proved below). -/
def stockAt (bevs : List Beverage) (i : Nat) : Nat :=
  (bevs.getD i { Name := "", Price := 0, Stock := 0 }).Stock

/-- `hasItems` of src/main.go lines 161-167 (and the same loop in
`cartView`): does some cart entry hold a positive quantity? -/
def hasItems (cart : List Nat) : Bool :=
  cart.any (fun q => decide (0 < q))

/-- The tab-switch block of `model.Update` (src/main.go lines 115-122):
`s` selects the Shop tab, `c` the Cart tab, and either also clears
`isCheckingOut`; other keys change nothing here. -/
def switchTab (m : model) (k : String) : model :=
  if k = "s" then { m with activeTab := 0, isCheckingOut := false }
  else if k = "c" then { m with activeTab := 1, isCheckingOut := false }
  else m

/-- The quantity adjustment of the Shop-tab block (src/main.go lines
126-137): increment below the stock ceiling, decrement above zero, each a
silent no-op at the boundary. -/
def bumpCart (m : model) (k : String) : model :=
  if k = "+" ∨ k = "=" ∨ k = "right" then
    if cartQty m.cart m.cursor < stockAt m.beverages m.cursor then
      { m with cart := m.cart.set m.cursor (cartQty m.cart m.cursor + 1) }
    else m
  else if k = "-" ∨ k = "left" then
    if 0 < cartQty m.cart m.cursor then
      { m with cart := m.cart.set m.cursor (cartQty m.cart m.cursor - 1) }
    else m
  else m

/-- The Shop-tab block (src/main.go lines 125-149): adjust the quantity,
then hand the key to the table component, whose only state effect is cursor
navigation (`navCursor`); the rows it rebuilds are a function of
`beverages` and `cart` and carry no extra state. -/
def shopUpdate (m : model) (k : String) : model :=
  let m2 := bumpCart m k
  { m2 with cursor := navCursor m2.beverages.length m2.cursor k }

/-- The Cart-tab block (src/main.go lines 151-172): while checking out,
`y` quits and `n`/`esc` cancel; otherwise `enter` begins checkout exactly
when some quantity is positive. -/
def cartUpdate (m : model) (k : String) : model × Bool :=
  if m.isCheckingOut then
    if k = "y" then (m, true)
    else if k = "n" ∨ k = "esc" then ({ m with isCheckingOut := false }, false)
    else (m, false)
  else
    if k = "enter" ∧ hasItems m.cart then ({ m with isCheckingOut := true }, false)
    else (m, false)

/-- The controller `model.Update` of src/main.go, returning the next state
and whether the session terminates (`tea.Quit`).  It mirrors the Go source
switch by switch: the resize early-return; the quit keys; the `s`/`c` tab
switch; then, on the tab that is active after the switch, the Shop or the
Cart block. -/
def model.Update (m : model) (msg : Msg) : model × Bool :=
  match msg with
  | Msg.resize w h => ({ m with width := w, height := h }, false)
  | Msg.key k =>
    if k = "ctrl+c" ∨ k = "q" then (m, true)
    else
      let m1 := switchTab m k
      if m1.activeTab = 0 then (shopUpdate m1 k, false)
      else if m1.activeTab = 1 then cartUpdate m1 k
      else (m1, false)

/-- The reachable states: `initialModel`, closed under processing any event. -/
inductive Reachable : model → Prop where
  | init : Reachable initialModel
  | step (m : model) (msg : Msg) : Reachable m → Reachable (m.Update msg).1

/-- `fmt.Sprintf "€%.2f"` on an exact cent amount: euros, a dot, and the
cent remainder zero-padded to two digits. -/
def euroFmt (cents : Nat) : String :=
  "€" ++ toString (cents / 100) ++ "." ++
    (if cents % 100 < 10 then "0" else "") ++ toString (cents % 100)

/-- Go's `%-20s`: left-justify, pad with spaces to the field width. -/
def padRight (w : Nat) (s : String) : String :=
  s ++ String.mk (List.replicate (w - s.length) ' ')

/-- `m.beverages[i].Price` in cents. -/
def priceAt (bevs : List Beverage) (i : Nat) : Nat :=
  (bevs.getD i { Name := "", Price := 0, Stock := 0 }).Price

/-- The line total `beverage.Price * float64(quantity)` of a cart entry, in
cents (exact, see the module comment). -/
def lineTotalCents (m : model) (i : Nat) : Nat :=
  priceAt m.beverages i * cartQty m.cart i

/-- One rendered cart line, src/main.go lines 265-266:
`  <qty>x <name %-20s> @ €<price> each = €<line total>`. -/
def entryLine (m : model) (i : Nat) : String :=
  "  " ++ toString (cartQty m.cart i) ++ "x " ++
    padRight 20 (m.beverages.getD i { Name := "", Price := 0, Stock := 0 }).Name ++
    " @ " ++ euroFmt (priceAt m.beverages i) ++ " each = " ++
    euroFmt (lineTotalCents m i) ++ "\n"

/-- The rendered lines of the cart loop: one `entryLine` per key of positive
quantity, in the map iteration order `order`. -/
def cartLines (m : model) (order : List Nat) : List String :=
  (order.filter (fun i => decide (0 < cartQty m.cart i))).map (entryLine m)

/-- The running `totalPrice` the cart loop accumulates, in cents. -/
def cartTotalCents (m : model) (order : List Nat) : Nat :=
  ((order.filter (fun i => decide (0 < cartQty m.cart i))).map (lineTotalCents m)).sum

/-- `model.cartView` of src/main.go.  `order` is the order in which Go's
`range m.cart` visits the map keys — unspecified by Go, hence a parameter;
a faithful instantiation is any permutation of the catalog indices. -/
def model.cartView (m : model) (order : List Nat) : String :=
  "Your Current Order:\n\n" ++ String.join (cartLines m order) ++
    (if cartLines m order = [] then
      "  Your cart is empty!\n\n\nGo to the 'Shop' tab to add items."
    else
      "\n  -------------------------------------------\n" ++
      "  Total: " ++ euroFmt (cartTotalCents m order) ++ "\n" ++
      (if m.isCheckingOut then
        "\n\nConfirm purchase? (y/n)\n(Press 'esc' or 'n' to cancel checkout)"
      else
        "\n\nPress 'enter' to checkout."))

/-- The inductive invariant: the catalog is the fixed `ourBeverages`, the
quantity list spans it, the cursor is in bounds, every quantity respects
its stock ceiling, and checkout is pending only on the Cart tab and only
with some positive quantity. -/
def StateInv (m : model) : Prop :=
  m.beverages = ourBeverages ∧
  m.cart.length = ourBeverages.length ∧
  m.cursor < ourBeverages.length ∧
  (∀ i, cartQty m.cart i ≤ stockAt m.beverages i) ∧
  (m.isCheckingOut = true → m.activeTab = 1) ∧
  (m.isCheckingOut = true → ∃ i, 0 < cartQty m.cart i)

/-- The key names `model.Update` reacts to (src/main.go lines 111, 116,
119, 127, 132, 154, 156, 160, plus the spec-modelled table navigation);
every other key press is ignored. -/
def recognizedKeys : List String :=
  ["ctrl+c", "q", "s", "c", "+", "=", "right", "-", "left", "up", "down",
   "y", "n", "esc", "enter"]

/-- The reachable state after incrementing item 0, switching to the Cart
tab and confirming: checkout is pending. -/
def sCheckout : model :=
  (((initialModel.Update (Msg.key "+")).1.Update (Msg.key "c")).1.Update
    (Msg.key "enter")).1

/-- The Cart-tab state of Scenario D: item 1 with quantity 2. -/
def sReview : model := { initialModel with activeTab := 1, cart := [0, 2, 0, 0, 0] }

/-- `sReview` with checkout pending. -/
def sConfirm : model := { sReview with isCheckingOut := true }

/-- A Cart-tab state whose cart holds two positive entries (items 0 and 1). -/
def s2e : model := { initialModel with cart := [2, 1, 0, 0, 0], activeTab := 1 }

/-! ### Basic facts about the embedding's data accessors -/

theorem cartQty_replicate (n i : Nat) : cartQty (List.replicate n 0) i = 0 := by
  rcases Nat.lt_or_ge i n with h | h
  · rw [cartQty, List.getD_eq_getElem _ _ (by simpa using h)]
    simp
  · rw [cartQty, List.getD_eq_default _ _ (by simpa using h)]

theorem cartQty_set (cart : List Nat) (c v i : Nat) :
    cartQty (cart.set c v) i =
      if c = i ∧ c < cart.length then v else cartQty cart i := by
  rcases Nat.lt_or_ge i cart.length with hi | hi
  · rw [cartQty, List.getD_eq_getElem _ _ (by simpa using hi)]
    by_cases hc : c = i
    · subst hc
      simp [List.getElem_set, hi, cartQty]
    · rw [List.getElem_set_ne (by omega), if_neg (by omega), cartQty,
        List.getD_eq_getElem _ _ hi]
  · rw [cartQty, List.getD_eq_default _ _ (by simpa using hi),
      cartQty, List.getD_eq_default _ _ hi]
    have : ¬(c = i ∧ c < cart.length) := by omega
    simp [this]

theorem cartQty_pos_lt_length {cart : List Nat} {i : Nat}
    (h : 0 < cartQty cart i) : i < cart.length := by
  by_contra hge
  rw [cartQty, List.getD_eq_default _ _ (by omega)] at h
  omega

theorem hasItems_iff (cart : List Nat) :
    hasItems cart = true ↔ ∃ i, 0 < cartQty cart i := by
  rw [hasItems, List.any_eq_true]
  constructor
  · rintro ⟨q, hq, hpos⟩
    obtain ⟨i, hi, rfl⟩ := List.getElem_of_mem hq
    exact ⟨i, by rw [cartQty, List.getD_eq_getElem _ _ hi]; simpa using hpos⟩
  · rintro ⟨i, hpos⟩
    have hi := cartQty_pos_lt_length hpos
    refine ⟨cart[i], List.getElem_mem hi, ?_⟩
    rw [cartQty, List.getD_eq_getElem _ _ hi] at hpos
    simpa using hpos

/-! ### Field-preservation facts for the controller's blocks -/

theorem switchTab_beverages (m : model) (k : String) :
    (switchTab m k).beverages = m.beverages := by
  rw [switchTab]; split
  · rfl
  · split <;> rfl

theorem switchTab_cart (m : model) (k : String) :
    (switchTab m k).cart = m.cart := by
  rw [switchTab]; split
  · rfl
  · split <;> rfl

theorem switchTab_cursor (m : model) (k : String) :
    (switchTab m k).cursor = m.cursor := by
  rw [switchTab]; split
  · rfl
  · split <;> rfl

theorem bumpCart_beverages (m : model) (k : String) :
    (bumpCart m k).beverages = m.beverages := by
  rw [bumpCart]; split
  · split <;> rfl
  · split
    · split <;> rfl
    · rfl

theorem bumpCart_cursor (m : model) (k : String) :
    (bumpCart m k).cursor = m.cursor := by
  rw [bumpCart]; split
  · split <;> rfl
  · split
    · split <;> rfl
    · rfl

theorem bumpCart_activeTab (m : model) (k : String) :
    (bumpCart m k).activeTab = m.activeTab := by
  rw [bumpCart]; split
  · split <;> rfl
  · split
    · split <;> rfl
    · rfl

theorem bumpCart_isCheckingOut (m : model) (k : String) :
    (bumpCart m k).isCheckingOut = m.isCheckingOut := by
  rw [bumpCart]; split
  · split <;> rfl
  · split
    · split <;> rfl
    · rfl

theorem bumpCart_cart_length (m : model) (k : String) :
    (bumpCart m k).cart.length = m.cart.length := by
  rw [bumpCart]; split
  · split
    · simp
    · rfl
  · split
    · split
      · simp
      · rfl
    · rfl

theorem bumpCart_qty_le (m : model) (k : String)
    (h : ∀ i, cartQty m.cart i ≤ stockAt m.beverages i) :
    ∀ i, cartQty (bumpCart m k).cart i ≤ stockAt (bumpCart m k).beverages i := by
  intro i
  rw [bumpCart_beverages]
  rw [bumpCart]; split
  · split
    · rename_i hlt
      show cartQty (m.cart.set m.cursor (cartQty m.cart m.cursor + 1)) i ≤ _
      rw [cartQty_set]
      split
      · rename_i hc; rcases hc with ⟨rfl, _⟩; omega
      · exact h i
    · exact h i
  · split
    · split
      · show cartQty (m.cart.set m.cursor (cartQty m.cart m.cursor - 1)) i ≤ _
        rw [cartQty_set]
        split
        · rename_i hc; rcases hc with ⟨rfl, _⟩
          exact le_trans (Nat.sub_le _ _) (h m.cursor)
        · exact h i
      · exact h i
    · exact h i

/-! ### The inductive invariant of the reachable states -/

theorem StateInv_initial : StateInv initialModel := by
  refine ⟨rfl, by simp [initialModel], by decide, ?_, by simp [initialModel], ?_⟩
  · intro i
    show cartQty (List.replicate ourBeverages.length 0) i ≤ _
    rw [cartQty_replicate]
    exact Nat.zero_le _
  · intro h
    simp [initialModel] at h

theorem navCursor_lt {n cur : Nat} (k : String) (h : cur < n) :
    navCursor n cur k < n := by
  rw [navCursor]
  split
  · omega
  · split <;> omega

theorem StateInv_switchTab (m : model) (k : String) (h : StateInv m) :
    StateInv (switchTab m k) := by
  obtain ⟨hb, hlen, hcur, hqty, hck, hit⟩ := h
  rw [switchTab]
  split
  · exact ⟨hb, hlen, hcur, hqty, by simp, by simp⟩
  · split
    · exact ⟨hb, hlen, hcur, hqty, by simp, by simp⟩
    · exact ⟨hb, hlen, hcur, hqty, hck, hit⟩

theorem StateInv_shopUpdate (m : model) (k : String) (h : StateInv m)
    (h0 : m.activeTab = 0) : StateInv (shopUpdate m k) := by
  obtain ⟨hb, hlen, hcur, hqty, hck, hit⟩ := h
  have hbb := bumpCart_beverages m k
  have hcc := bumpCart_cursor m k
  have hle := bumpCart_cart_length m k
  have hq := bumpCart_qty_le m k hqty
  have hco := bumpCart_isCheckingOut m k
  refine ⟨?_, ?_, ?_, ?_, ?_, ?_⟩
  · show (bumpCart m k).beverages = ourBeverages
    rw [hbb, hb]
  · show (bumpCart m k).cart.length = ourBeverages.length
    rw [hle, hlen]
  · show navCursor (bumpCart m k).beverages.length (bumpCart m k).cursor k <
      ourBeverages.length
    rw [hbb, hb, hcc]
    exact navCursor_lt k hcur
  · intro i
    show cartQty (bumpCart m k).cart i ≤ stockAt (bumpCart m k).beverages i
    exact hq i
  · intro hco'
    have hm : m.isCheckingOut = true := by
      rw [← hco]; exact hco'
    have := hck hm
    omega
  · intro hco'
    have hm : m.isCheckingOut = true := by
      rw [← hco]; exact hco'
    have := hck hm
    omega

theorem StateInv_cartUpdate (m : model) (k : String) (h : StateInv m)
    (h1 : m.activeTab = 1) : StateInv (cartUpdate m k).1 := by
  obtain ⟨hb, hlen, hcur, hqty, hck, hit⟩ := h
  rw [cartUpdate]
  split
  · split
    · exact ⟨hb, hlen, hcur, hqty, hck, hit⟩
    · split
      · exact ⟨hb, hlen, hcur, hqty, by simp, by simp⟩
      · exact ⟨hb, hlen, hcur, hqty, hck, hit⟩
  · split
    · rename_i hcond
      exact ⟨hb, hlen, hcur, hqty, fun _ => h1, fun _ => (hasItems_iff m.cart).mp hcond.2⟩
    · exact ⟨hb, hlen, hcur, hqty, hck, hit⟩

theorem StateInv_step (m : model) (msg : Msg) (h : StateInv m) :
    StateInv (m.Update msg).1 := by
  cases msg with
  | resize w h' =>
    obtain ⟨hb, hlen, hcur, hqty, hck, hit⟩ := h
    exact ⟨hb, hlen, hcur, hqty, hck, hit⟩
  | key k =>
    simp only [model.Update]
    split
    · exact h
    · have h1 := StateInv_switchTab m k h
      split
      · rename_i h0
        exact StateInv_shopUpdate _ k h1 h0
      · split
        · rename_i hno h0
          exact StateInv_cartUpdate _ k h1 h0
        · exact h1

/-- Every reachable state satisfies the inductive invariant. -/
theorem StateInv_of_Reachable (m : model) (h : Reachable m) : StateInv m := by
  induction h with
  | init => exact StateInv_initial
  | step m msg hm ih => exact StateInv_step m msg ih

/-! ### Claim theorems -/

/-- C1: in every reachable state the cursor is a valid catalog index and
every cart entry's quantity is between 0 and the stock at its index (the
lower bound holding by the `Nat` quantity type). -/
theorem reachable_cursor_and_cart_bounds (m : model) (h : Reachable m) :
    m.cursor < m.beverages.length ∧
    ∀ i, cartQty m.cart i ≤ stockAt m.beverages i := by
  obtain ⟨hb, _, hcur, hqty, _, _⟩ := StateInv_of_Reachable m h
  exact ⟨by rw [hb]; exact hcur, hqty⟩

theorem reachable_cursor_and_cart_bounds_witness :
    initialModel.cursor < initialModel.beverages.length ∧
    ∀ i, cartQty initialModel.cart i ≤ stockAt initialModel.beverages i :=
  reachable_cursor_and_cart_bounds initialModel Reachable.init

/-- C2: the transition function is total (it is a Lean function into
`model × Bool`), an unrecognized key returns the state unchanged with no
quit, and in every reachable state the cursor used to index the catalog in
the increment/decrement branch is in bounds, so the Go indexing
`m.beverages[cursor]` cannot fail. -/
theorem transition_total_never_fails (m : model) (h : Reachable m) :
    (∀ k, k ∉ recognizedKeys → m.Update (Msg.key k) = (m, false)) ∧
    m.cursor < m.beverages.length := by
  refine ⟨?_, (reachable_cursor_and_cart_bounds m h).1⟩
  intro k hk
  simp only [recognizedKeys, List.mem_cons, List.mem_singleton, not_or] at hk
  obtain ⟨h1, h2, h3, h4, h5, h6, h7, h8, h9, h10, h11, h12, h13, h14, h15, -⟩ := hk
  simp only [model.Update]
  rw [if_neg (by tauto)]
  have hsw : switchTab m k = m := by rw [switchTab, if_neg h3, if_neg h4]
  rw [hsw]
  have hbump : bumpCart m k = m := by
    rw [bumpCart, if_neg (by tauto), if_neg (by tauto)]
  have hnav : navCursor m.beverages.length m.cursor k = m.cursor := by
    rw [navCursor, if_neg h11, if_neg h10]
  by_cases h0 : m.activeTab = 0
  · rw [if_pos h0]
    simp only [shopUpdate, hbump, hnav]
  · rw [if_neg h0]
    by_cases ht1 : m.activeTab = 1
    · rw [if_pos ht1, cartUpdate]
      by_cases hco : m.isCheckingOut = true
      · rw [if_pos hco, if_neg h12, if_neg (by tauto)]
      · rw [if_neg hco, if_neg (by tauto)]
    · rw [if_neg ht1]

theorem transition_total_never_fails_witness :
    initialModel.Update (Msg.key "x") = (initialModel, false) ∧
    initialModel.cursor < initialModel.beverages.length := by
  have h := transition_total_never_fails initialModel Reachable.init
  exact ⟨h.1 "x" (by decide), h.2⟩

/-- A shop-tab key press that neither quits, switches tabs, adjusts the
cart nor moves the cursor leaves the state unchanged. -/
theorem shop_noop (m : model) (k : String) (h0 : m.activeTab = 0)
    (hquit : ¬(k = "ctrl+c" ∨ k = "q")) (hs : k ≠ "s") (hc : k ≠ "c")
    (hbump : bumpCart m k = m)
    (hnav : navCursor m.beverages.length m.cursor k = m.cursor) :
    m.Update (Msg.key k) = (m, false) := by
  simp only [model.Update]
  rw [if_neg hquit]
  have hsw : switchTab m k = m := by rw [switchTab, if_neg hs, if_neg hc]
  rw [hsw, if_pos h0]
  simp only [shopUpdate, hbump, hnav]

/-- C4: on the Shop tab, an increment at the stock ceiling and a decrement
at quantity zero are silent no-ops (state and quit flag unchanged), for
each key bound to the operation. -/
theorem boundary_increment_decrement_noop (m : model) (h0 : m.activeTab = 0) :
    (cartQty m.cart m.cursor = stockAt m.beverages m.cursor →
      m.Update (Msg.key "+") = (m, false) ∧
      m.Update (Msg.key "=") = (m, false) ∧
      m.Update (Msg.key "right") = (m, false)) ∧
    (cartQty m.cart m.cursor = 0 →
      m.Update (Msg.key "-") = (m, false) ∧
      m.Update (Msg.key "left") = (m, false)) := by
  constructor
  · intro hceil
    refine ⟨?_, ?_, ?_⟩ <;>
      exact shop_noop m _ h0 (by decide) (by decide) (by decide)
        (by rw [bumpCart, if_pos (by tauto), if_neg (by omega)])
        (by rw [navCursor, if_neg (by decide), if_neg (by decide)])
  · intro hzero
    refine ⟨?_, ?_⟩ <;>
      exact shop_noop m _ h0 (by decide) (by decide) (by decide)
        (by rw [bumpCart, if_neg (by decide), if_pos (by tauto), if_neg (by omega)])
        (by rw [navCursor, if_neg (by decide), if_neg (by decide)])

theorem boundary_increment_decrement_noop_witness :
    (let sFull : model := { initialModel with cart := [24, 0, 0, 0, 0] }
     sFull.Update (Msg.key "+") = (sFull, false)) ∧
    initialModel.Update (Msg.key "-") = (initialModel, false) :=
  ⟨((boundary_increment_decrement_noop
      { initialModel with cart := [24, 0, 0, 0, 0] } rfl).1 (by decide)).1,
   ((boundary_increment_decrement_noop initialModel rfl).2 (by decide)).1⟩

/-- C8: a resize event updates exactly the viewport width and height: tab,
cursor, cart, checkout flag, catalog and the control state are unchanged,
and the session does not terminate. -/
theorem resize_updates_only_viewport (m : model) (w h : Int) :
    m.Update (Msg.resize w h) = ({ m with width := w, height := h }, false) ∧
    (m.Update (Msg.resize w h)).1.activeTab = m.activeTab ∧
    (m.Update (Msg.resize w h)).1.cursor = m.cursor ∧
    (m.Update (Msg.resize w h)).1.cart = m.cart ∧
    (m.Update (Msg.resize w h)).1.isCheckingOut = m.isCheckingOut ∧
    (m.Update (Msg.resize w h)).1.beverages = m.beverages ∧
    (m.Update (Msg.resize w h)).1.width = w ∧
    (m.Update (Msg.resize w h)).1.height = h ∧
    (m.Update (Msg.resize w h)).2 = false :=
  ⟨rfl, rfl, rfl, rfl, rfl, rfl, rfl, rfl, rfl⟩

/-- A key press that neither quits nor switches tabs, processed on the Cart
tab, is handled entirely by the Cart block. -/
theorem update_cart_tab (m : model) (k : String) (h1 : m.activeTab = 1)
    (hquit : ¬(k = "ctrl+c" ∨ k = "q")) (hs : k ≠ "s") (hc : k ≠ "c") :
    m.Update (Msg.key k) = cartUpdate m k := by
  simp only [model.Update]
  rw [if_neg hquit]
  have hsw : switchTab m k = m := by rw [switchTab, if_neg hs, if_neg hc]
  rw [hsw, if_neg (by omega), if_pos h1]

theorem shopUpdate_isCheckingOut (m : model) (k : String) :
    (shopUpdate m k).isCheckingOut = m.isCheckingOut :=
  bumpCart_isCheckingOut m k

theorem shopUpdate_activeTab (m : model) (k : String) :
    (shopUpdate m k).activeTab = m.activeTab :=
  bumpCart_activeTab m k

/-- Pressing `s` routes through the tab switch into the Shop block. -/
theorem update_s_eq (m : model) :
    m.Update (Msg.key "s") =
      (shopUpdate { m with activeTab := 0, isCheckingOut := false } "s", false) := by
  simp only [model.Update]
  rw [if_neg (by decide)]
  rw [show switchTab m "s" = { m with activeTab := 0, isCheckingOut := false } from
    by rw [switchTab, if_pos rfl]]
  rw [if_pos rfl]

/-- C5: in every reachable state `checkoutPending` is true only while the
Cart tab is active, and pressing `s` from any state clears it, activates
the Shop tab and does not quit. -/
theorem checkoutPending_only_on_cart_tab (m : model) :
    (Reachable m → m.isCheckingOut = true → m.activeTab = 1) ∧
    (m.Update (Msg.key "s")).1.isCheckingOut = false ∧
    (m.Update (Msg.key "s")).1.activeTab = 0 ∧
    (m.Update (Msg.key "s")).2 = false := by
  refine ⟨fun h hck => (StateInv_of_Reachable m h).2.2.2.2.1 hck, ?_, ?_, ?_⟩
  · rw [update_s_eq]
    exact shopUpdate_isCheckingOut { m with activeTab := 0, isCheckingOut := false } "s"
  · rw [update_s_eq]
    exact shopUpdate_activeTab { m with activeTab := 0, isCheckingOut := false } "s"
  · rw [update_s_eq]

theorem checkoutPending_only_on_cart_tab_witness :
    sCheckout.activeTab = 1 ∧
    (initialModel.Update (Msg.key "s")).1.isCheckingOut = false := by
  have hr : Reachable sCheckout :=
    Reachable.step _ (Msg.key "enter")
      (Reachable.step _ (Msg.key "c")
        (Reachable.step _ (Msg.key "+") Reachable.init))
  exact ⟨(checkoutPending_only_on_cart_tab sCheckout).1 hr (by decide),
    (checkoutPending_only_on_cart_tab initialModel).2.1⟩

/-- C6: on the Cart tab with checkout not pending and an all-zero cart,
`enter` is a silent no-op: checkout cannot be entered with an empty cart. -/
theorem confirm_empty_cart_noop (m : model) (h1 : m.activeTab = 1)
    (hco : m.isCheckingOut = false) (hz : ∀ i, cartQty m.cart i = 0) :
    m.Update (Msg.key "enter") = (m, false) := by
  have hhi : ¬hasItems m.cart = true := by
    rw [hasItems_iff]
    rintro ⟨i, hi⟩
    rw [hz i] at hi
    omega
  rw [update_cart_tab m _ h1 (by decide) (by decide) (by decide), cartUpdate,
    if_neg (by simp [hco]), if_neg (fun hcond => hhi hcond.2)]

theorem confirm_empty_cart_noop_witness :
    ({ initialModel with activeTab := 1 } : model).Update (Msg.key "enter") =
      ({ initialModel with activeTab := 1 }, false) :=
  confirm_empty_cart_noop { initialModel with activeTab := 1 } rfl rfl
    (fun i => cartQty_replicate ourBeverages.length i)

/-- C7: on the Cart tab, `enter` with a positive quantity somewhere sets
`checkoutPending`; while confirming, `n` and `esc` clear it and keep the
Cart tab active, and `y` terminates the session. -/
theorem confirm_decline_accept_flow (m : model) (h1 : m.activeTab = 1) :
    (m.isCheckingOut = false → (∃ i, 0 < cartQty m.cart i) →
      m.Update (Msg.key "enter") = ({ m with isCheckingOut := true }, false)) ∧
    (m.isCheckingOut = true →
      m.Update (Msg.key "n") = ({ m with isCheckingOut := false }, false) ∧
      m.Update (Msg.key "esc") = ({ m with isCheckingOut := false }, false) ∧
      (m.Update (Msg.key "n")).1.activeTab = 1 ∧
      m.Update (Msg.key "y") = (m, true)) := by
  constructor
  · intro hco hex
    rw [update_cart_tab m _ h1 (by decide) (by decide) (by decide), cartUpdate,
      if_neg (by simp [hco]), if_pos ⟨rfl, (hasItems_iff m.cart).mpr hex⟩]
  · intro hco
    refine ⟨?_, ?_, ?_, ?_⟩
    · rw [update_cart_tab m _ h1 (by decide) (by decide) (by decide), cartUpdate,
        if_pos hco, if_neg (by decide), if_pos (by decide)]
    · rw [update_cart_tab m _ h1 (by decide) (by decide) (by decide), cartUpdate,
        if_pos hco, if_neg (by decide), if_pos (by decide)]
    · rw [update_cart_tab m _ h1 (by decide) (by decide) (by decide), cartUpdate,
        if_pos hco, if_neg (by decide), if_pos (by decide)]
      exact h1
    · rw [update_cart_tab m _ h1 (by decide) (by decide) (by decide), cartUpdate,
        if_pos hco, if_pos rfl]

theorem confirm_decline_accept_flow_witness :
    sReview.Update (Msg.key "enter") = ({ sReview with isCheckingOut := true }, false) ∧
    sConfirm.Update (Msg.key "n") = ({ sConfirm with isCheckingOut := false }, false) ∧
    sConfirm.Update (Msg.key "y") = (sConfirm, true) := by
  have h1 := confirm_decline_accept_flow sReview rfl
  have h2 := confirm_decline_accept_flow sConfirm rfl
  exact ⟨h1.1 rfl ⟨1, by decide⟩, (h2.2 rfl).1, (h2.2 rfl).2.2.2⟩

/-- A positive-quantity index contributes its rendered line to the cart
view, for any iteration order that ranges over the cart's indices. -/
theorem entryLine_mem_cartLines (m : model) (o : List Nat) (i : Nat)
    (ho : o.Perm (List.range m.cart.length)) (hi : 0 < cartQty m.cart i) :
    entryLine m i ∈ cartLines m o := by
  have hilen : i < m.cart.length := cartQty_pos_lt_length hi
  have hio : i ∈ o := ho.mem_iff.mpr (List.mem_range.mpr hilen)
  exact List.mem_map_of_mem _
    (List.mem_filter.mpr ⟨hio, by simpa using hi⟩)

/-- Dropping zero-contribution elements does not change a sum. -/
theorem sum_map_filter_of_zero (o : List Nat) (f : Nat → Nat) (p : Nat → Bool)
    (h : ∀ i, p i = false → f i = 0) :
    ((o.filter p).map f).sum = (o.map f).sum := by
  induction o with
  | nil => rfl
  | cons a t ih =>
    by_cases hp : p a = true
    · rw [List.filter_cons_of_pos hp]
      simp [List.map_cons, List.sum_cons, ih]
    · have hp' : p a = false := by simpa using hp
      rw [List.filter_cons_of_neg (by simp [hp'])]
      simp [List.map_cons, List.sum_cons, ih, h a hp']

/-- C3 counterexample: `cartView` is *not* a function of the state alone.
Both orders are permutations of the cart's key set, as Go's map iteration
may produce either, yet on a state with two positive-quantity entries the
two calls yield different strings. -/
theorem cartView_depends_on_iteration_order :
    ([0, 1, 2, 3, 4] : List Nat).Perm [1, 0, 2, 3, 4] ∧
    s2e.cartView [0, 1, 2, 3, 4] ≠ s2e.cartView [1, 0, 2, 3, 4] :=
  ⟨by decide, by decide⟩

/-- C3 amended: `cartView` is deterministic in the state and the map
iteration order together; across two iteration orders that are permutations
of each other the rendered per-item lines agree as a multiset, the total is
identical, and emptiness agrees — only the byte order of the lines may
differ. -/
theorem cartView_deterministic_up_to_order (m : model) (o1 o2 : List Nat)
    (h : o1.Perm o2) :
    (cartLines m o1).Perm (cartLines m o2) ∧
    cartTotalCents m o1 = cartTotalCents m o2 ∧
    (cartLines m o1 = [] ↔ cartLines m o2 = []) := by
  have hf := h.filter (fun j => decide (0 < cartQty m.cart j))
  have hp : (cartLines m o1).Perm (cartLines m o2) := hf.map (entryLine m)
  refine ⟨hp, (hf.map (lineTotalCents m)).sum_eq, ?_, ?_⟩
  · intro h1
    exact ((h1 ▸ hp).symm).eq_nil
  · intro h2
    exact (h2 ▸ hp).eq_nil

theorem cartView_deterministic_up_to_order_witness :
    (cartLines s2e [0, 1, 2, 3, 4]).Perm (cartLines s2e [1, 0, 2, 3, 4]) ∧
    cartTotalCents s2e [0, 1, 2, 3, 4] = cartTotalCents s2e [1, 0, 2, 3, 4] ∧
    (cartLines s2e [0, 1, 2, 3, 4] = [] ↔ cartLines s2e [1, 0, 2, 3, 4] = []) :=
  cartView_deterministic_up_to_order s2e _ _ (by decide)

/-- C9: with exactly two positive-quantity entries `i` and `j`, the cart
total is exactly `price i * qty i + price j * qty j`, both item lines are
rendered (each showing its own line total, two-decimal formatted by
`euroFmt`), and the view's total line carries exactly that sum. -/
theorem cart_total_two_entries (m : model) (o : List Nat) (i j : Nat)
    (ho : o.Perm (List.range m.cart.length)) (hij : i ≠ j)
    (hi : 0 < cartQty m.cart i) (hj : 0 < cartQty m.cart j)
    (hz : ∀ k < m.cart.length, k ≠ i → k ≠ j → cartQty m.cart k = 0) :
    cartTotalCents m o =
      priceAt m.beverages i * cartQty m.cart i +
        priceAt m.beverages j * cartQty m.cart j ∧
    entryLine m i ∈ cartLines m o ∧ entryLine m j ∈ cartLines m o ∧
    m.cartView o =
      "Your Current Order:\n\n" ++ String.join (cartLines m o) ++
        ("\n  -------------------------------------------\n" ++
         "  Total: " ++
         euroFmt (priceAt m.beverages i * cartQty m.cart i +
           priceAt m.beverages j * cartQty m.cart j) ++ "\n" ++
         (if m.isCheckingOut = true then
           "\n\nConfirm purchase? (y/n)\n(Press 'esc' or 'n' to cancel checkout)"
         else
           "\n\nPress 'enter' to checkout.")) := by
  have hin : i < m.cart.length := cartQty_pos_lt_length hi
  have hjn : j < m.cart.length := cartQty_pos_lt_length hj
  have hmi := entryLine_mem_cartLines m o i ho hi
  have hmj := entryLine_mem_cartLines m o j ho hj
  have hzf : ∀ k, (decide (0 < cartQty m.cart k)) = false → lineTotalCents m k = 0 := by
    intro k hk
    have hk0 : cartQty m.cart k = 0 := by
      have : ¬0 < cartQty m.cart k := by simpa using hk
      omega
    rw [lineTotalCents, hk0, Nat.mul_zero]
  have htot : cartTotalCents m o =
      priceAt m.beverages i * cartQty m.cart i +
        priceAt m.beverages j * cartQty m.cart j := by
    rw [cartTotalCents,
      sum_map_filter_of_zero o (lineTotalCents m) _ hzf,
      (ho.map (lineTotalCents m)).sum_eq]
    have hbridge : ((List.range m.cart.length).map (lineTotalCents m)).sum =
        ∑ k in Finset.range m.cart.length, lineTotalCents m k := rfl
    rw [hbridge]
    have hsub : ({i, j} : Finset Nat) ⊆ Finset.range m.cart.length := by
      intro x hx
      rcases Finset.mem_insert.mp hx with rfl | hx'
      · exact Finset.mem_range.mpr hin
      · rw [Finset.mem_singleton.mp hx']
        exact Finset.mem_range.mpr hjn
    have hout : ∀ x ∈ Finset.range m.cart.length,
        x ∉ ({i, j} : Finset Nat) → lineTotalCents m x = 0 := by
      intro x hx hnx
      simp only [Finset.mem_insert, Finset.mem_singleton, not_or] at hnx
      rw [lineTotalCents, hz x (Finset.mem_range.mp hx) hnx.1 hnx.2, Nat.mul_zero]
    rw [← Finset.sum_subset hsub hout, Finset.sum_pair hij]
    rfl
  refine ⟨htot, hmi, hmj, ?_⟩
  rw [model.cartView, if_neg (List.ne_nil_of_mem hmi), htot]

theorem cart_total_two_entries_witness :
    cartTotalCents s2e [0, 1, 2, 3, 4] =
      priceAt s2e.beverages 0 * cartQty s2e.cart 0 +
        priceAt s2e.beverages 1 * cartQty s2e.cart 1 ∧
    entryLine s2e 0 ∈ cartLines s2e [0, 1, 2, 3, 4] ∧
    entryLine s2e 1 ∈ cartLines s2e [0, 1, 2, 3, 4] := by
  have h := cart_total_two_entries s2e [0, 1, 2, 3, 4] 0 1 (by decide)
    (by decide) (by decide) (by decide) (by decide)
  exact ⟨h.1, h.2.1, h.2.2.1⟩

/-- C10: in every reachable state with checkout pending, some cart entry is
positive, and for every iteration order over the cart's indices the cart
view renders the non-empty branch: the confirmation prompt appears only
after the item lines and the total, never over an empty cart. -/
theorem checkoutPending_implies_nonempty_cart (m : model) (h : Reachable m)
    (hco : m.isCheckingOut = true) :
    (∃ i, 0 < cartQty m.cart i) ∧
    ∀ o, o.Perm (List.range m.cart.length) →
      cartLines m o ≠ [] ∧
      m.cartView o =
        "Your Current Order:\n\n" ++ String.join (cartLines m o) ++
          ("\n  -------------------------------------------\n" ++
           "  Total: " ++ euroFmt (cartTotalCents m o) ++ "\n" ++
           "\n\nConfirm purchase? (y/n)\n(Press 'esc' or 'n' to cancel checkout)") := by
  obtain ⟨-, -, -, -, -, hit⟩ := StateInv_of_Reachable m h
  obtain ⟨i, hi⟩ := hit hco
  refine ⟨⟨i, hi⟩, ?_⟩
  intro o hperm
  have hmem := entryLine_mem_cartLines m o i hperm hi
  have hne := List.ne_nil_of_mem hmem
  refine ⟨hne, ?_⟩
  rw [model.cartView, if_neg hne, if_pos hco]

theorem checkoutPending_implies_nonempty_cart_witness :
    (∃ i, 0 < cartQty sCheckout.cart i) ∧
    cartLines sCheckout [0, 1, 2, 3, 4] ≠ [] := by
  have hr : Reachable sCheckout :=
    Reachable.step _ (Msg.key "enter")
      (Reachable.step _ (Msg.key "c")
        (Reachable.step _ (Msg.key "+") Reachable.init))
  have h := checkoutPending_implies_nonempty_cart sCheckout hr (by decide)
  exact ⟨h.1, (h.2 [0, 1, 2, 3, 4] (by decide)).1⟩
